import Mathlib

/-!
Verification development for the telemetrics-client probe daemon
(src/telemdaemon.c): a shallow embedding of the connection table / poll
set, the record framer (handle_client), the record decoder
(process_record), the stager (stage_record), the machine-id resolver
(machine_id_replace / get_machine_id) and the machine-id store
(update_machine_id / generate_machine_id / machine_id_write), together
with theorems settling the specification claims about them.

Machine integers are modelled as Nat with explicit reduction modulo
2^64 where size_t wraparound matters.  C strings are modelled as Lean
String values manipulated through their underlying character lists so
that all operations reduce by computation.  Fallible system calls
(recv, malloc, mkstemp, fdopen, fprintf, stat, fopen) are modelled by
explicit outcome parameters: the embedded function receives the
outcome of every call the C code makes and is total in it.
-/

namespace Telem

/-! ## Basic constants and compile-time parameters

`RECORD_SIZE_LEN` is sizeof(uint32_t).  The remaining constants
(CFG_PREFIX_LENGTH, PATH_MAX, MAX_PAYLOAD_LENGTH, NUM_HEADERS, the
header-name schema, the config magic and marker, TM_MACHINE_ID_STR)
come from headers outside this translation unit, so the embedding is
parametrised over them by a `Params` record; theorems quantify over
all parameter values and witnesses instantiate them concretely. -/

def RECORD_SIZE_LEN : Nat := 4

structure Params where
  cfgPrefixLength : Nat
  pathMax : Nat
  maxPayloadLength : Nat
  headerNames : List String
  machineIdStr : String
  cfgMagic : List Nat
  cfgMarker : String
deriving Repr

/-- MAX_RECORD_SIZE, as defined by the macro in telemdaemon.c:
2*sizeof(uint32_t) + CFG_PREFIX_LENGTH + PATH_MAX + MAX_PAYLOAD_LENGTH
+ NUM_HEADERS*80. -/
def MAX_RECORD_SIZE (p : Params) : Nat :=
  2 * 4 + p.cfgPrefixLength + p.pathMax + p.maxPayloadLength + p.headerNames.length * 80

/-! ## Byte and string helpers -/

/-- Bytes of a (pure-ASCII in all uses here) string. -/
def strBytes (s : String) : List Nat :=
  s.data.map (fun c => c.toNat)

/-- Characters from bytes, each reduced mod 256. -/
def bytesToStr (bs : List Nat) : String :=
  ⟨bs.map (fun b => Char.ofNat (b % 256))⟩

/-- Little-endian uint32 read from the first four bytes (as a dereference
of a uint32_t pointer does on the target platform). -/
def u32le (bs : List Nat) : Nat :=
  ((bs.take 4).reverse).foldl (fun a b => a * 256 + b % 256) 0

/-- First n characters of a string (strncpy-style truncation). -/
def takeChars (s : String) (n : Nat) : String :=
  ⟨s.data.take n⟩

/-- Split a character list at a separator, strtok-style pieces
including empty ones; callers filter the empties exactly as strtok
skips runs of the delimiter. -/
def splitCh (sep : Char) : List Char → List (List Char)
  | [] => [[]]
  | c :: cs =>
    if c = sep then
      [] :: splitCh sep cs
    else
      match splitCh sep cs with
      | [] => [[c]]
      | t :: ts => (c :: t) :: ts

/-- Successive strtok(.., newline) results over a string: the maximal
nonempty newline-free tokens in order. -/
def tokLines (s : String) : List String :=
  ((splitCh ('\n') s.data).filter (fun l => l ≠ [])).map (fun l => (⟨l⟩ : String))

/-! ## Connection table and poll set

client (telemdaemon.h) carries fd, buf, size, offset; the buffer is
abstracted to its presence and the bookkeeping numbers.  The client
list is a LIST_HEAD singly-linked list: insertion is at the head,
removal removes the given node. -/

structure ClientM where
  fd : Int
  offset : Nat
  size : Nat
  bufPresent : Bool
deriving DecidableEq, Repr

structure PollFd where
  fd : Int
  events : Int
  revents : Int
deriving DecidableEq, Repr

/-- add_client: malloc the client struct; on success initialise
fd/offset/buf and LIST_INSERT_HEAD it; on malloc failure return NULL
with the list untouched (no exit call exists on this path). -/
def add_client (mallocOk : Bool) (head : List ClientM) (fd : Int) :
    Option ClientM × List ClientM :=
  if mallocOk then
    let cl : ClientM := { fd := fd, offset := 0, size := 0, bufPresent := false }
    (some cl, cl :: head)
  else
    (none, head)

/-- remove_client: LIST_REMOVE the node, free its buffer if present,
close its descriptor, free it.  At the list level this removes the
given element. -/
def remove_client (head : List ClientM) (cl : ClientM) : List ClientM :=
  head.erase cl

/-- add_pollfd: grow the pollfds array by one entry
(fd, events, revents=0); on malloc/realloc failure the daemon calls
exit(EXIT_FAILURE), modelled as the `none` outcome. -/
def add_pollfd (allocOk : Bool) (pollfds : List PollFd) (fd : Int) (events : Int) :
    Option (List PollFd) :=
  if allocOk then
    some (pollfds ++ [{ fd := fd, events := events, revents := 0 }])
  else
    none

/-- del_pollfd: memmove the entries after index i down by one and
decrement nfds — compaction removal of entry i. -/
def del_pollfd (pollfds : List PollFd) (i : Nat) : List PollFd :=
  pollfds.take i ++ pollfds.drop (i + 1)

structure DaemonStateM where
  pollfds : List PollFd
  clients : List ClientM
deriving Repr

/-- terminate_client: del_pollfd at the given index, then
remove_client from the client list. -/
def terminate_client (st : DaemonStateM) (cl : ClientM) (i : Nat) : DaemonStateM :=
  { pollfds := del_pollfd st.pollfds i, clients := remove_client st.clients cl }

/-! ## Record framer: handle_client

Each recv call's outcome is one `Recv` value: `rerr` a negative
return, `closed` a zero return, `chunk n` a positive return of n
bytes.  handle_client consumes: one MSG_PEEK outcome, one record-size
read outcome (with the uint32 value read), then a stream of body-read
outcomes.  The result records whether a record buffer was allocated
(calloc reached), how many times process_record was invoked, how many
times terminate_client was invoked, the boolean return value, and
whether the process exited via exit(EXIT_FAILURE) (calloc failure). -/

inductive Recv
  | rerr
  | closed
  | chunk (n : Nat)
deriving DecidableEq, Repr

structure HCInput where
  peek : Recv
  sizeRecv : Recv
  recordSize : Nat
  callocOk : Bool
  bodyReads : List Recv
deriving Repr

structure HCResult where
  allocated : Bool
  processCalls : Nat
  terminateCalls : Nat
  retval : Bool
  aborted : Bool
deriving DecidableEq, Repr

/-- The do/while recv loop of handle_client: read into the buffer at
the current offset until offset reaches the buffer size (then
process_record runs once, via a single break), or the peer errors out
or closes.  A recv never returns more than the cl.size - cl.offset
bytes requested, so an over-long chunk is clamped; an exhausted
outcome stream models a peer that never sends the rest (the C loop
would stay blocked in recv — no further effect is observed). -/
def read_loop (size : Nat) : Nat → List Recv → Nat × Bool
  | _, [] => (0, false)
  | offset, r :: rs =>
    match r with
    | .rerr => (0, false)
    | .closed => (0, false)
    | .chunk n =>
      let len := min n (size - offset)
      if len = 0 then
        (0, false)
      else
        let offset1 := offset + len
        if offset1 = size then
          (1, true)
        else
          read_loop size offset1 rs

/-- handle_client, at the trace level: peek, size read, size-field
validation, calloc, body loop; every return path flows through the
single end_client label calling terminate_client exactly once, except
the calloc-failure exit which never returns. -/
def handle_client (p : Params) (inp : HCInput) : HCResult :=
  match inp.peek with
  | .rerr => ⟨false, 0, 1, false, false⟩
  | .closed => ⟨false, 0, 1, false, false⟩
  | .chunk _ =>
    match inp.sizeRecv with
    | .rerr => ⟨false, 0, 1, false, false⟩
    | .closed => ⟨false, 0, 1, false, false⟩
    | .chunk _ =>
      if inp.recordSize ≤ RECORD_SIZE_LEN ∨ inp.recordSize > MAX_RECORD_SIZE p then
        ⟨false, 0, 1, false, false⟩
      else if ¬ inp.callocOk then
        ⟨false, 0, 0, false, true⟩
      else
        let bufSize := inp.recordSize - RECORD_SIZE_LEN
        let res := read_loop bufSize 0 inp.bodyReads
        ⟨true, res.1, 1, res.2, false⟩

/-! ## Machine-id resolver

get_machine_id reads the first whitespace-delimited token (at most 32
characters, fscanf %32s) of the machine-id file; its argument here is
the file's contents, `none` when the file cannot be opened. -/

def isWS (c : Char) : Bool :=
  c = ' ' ∨ c = ('\n') ∨ c = ('\t') ∨ c = ('\r')

def get_machine_id (fileContent : Option String) : Option String :=
  match fileContent with
  | none => none
  | some s =>
    let tok := ((s.data.dropWhile isWS).takeWhile (fun c => ¬ isWS c)).take 32
    if tok = [] then none else some (⟨tok⟩ : String)

/-- machine_id_replace: discard the submitted header line and rebuild
it as asprintf of TM_MACHINE_ID_STR, a colon-space, and the resolved
id: the override (strncpy-truncated to 32 characters) when one is
set, else the id read from the machine-id file, else the sentinel
digit zero. -/
def machine_id_replace (midStr : String) (ov : Option String) (fileContent : Option String) :
    String :=
  let machine_id :=
    match ov with
    | some o => takeChars o 32
    | none =>
      match get_machine_id fileContent with
      | some id => id
      | none => ("0")
  midStr ++ (": ") ++ machine_id

/-! ## Record decoder: process_record

The buffer handed over by the framer is a byte list `buf` with
cl.size = buf.length (the framer only calls process_record once the
buffer is exactly full).  The arithmetic below names each quantity
the C code computes. -/

/-- The optional config tag is present when the first 32 bits equal
CFG_PREFIX_32BIT. -/
def cfgPresent (p : Params) (buf : List Nat) : Bool :=
  buf.take 4 = p.cfgMagic

/-- The config path string: the C string starting CFG_PREFIX_LENGTH
bytes into the buffer. -/
def cfg_file_str (p : Params) (buf : List Nat) : String :=
  bytesToStr ((buf.drop p.cfgPrefixLength).takeWhile (fun b => b ≠ 0))

/-- cfg_info_size: CFG_PREFIX_LENGTH + strlen(cfg_file) + 1 when the
tag is present, 0 otherwise. -/
def cfg_info_size (p : Params) (buf : List Nat) : Nat :=
  if cfgPresent p buf then
    p.cfgPrefixLength + ((buf.drop p.cfgPrefixLength).takeWhile (fun b => b ≠ 0)).length + 1
  else
    0

/-- header_size: the uint32 read right after the config-tag region. -/
def header_size_of (p : Params) (buf : List Nat) : Nat :=
  u32le ((buf.drop (cfg_info_size p buf)).take 4)

/-- message_size = cl->size - (cfg_info_size + header_size), size_t
arithmetic: the subtraction wraps modulo 2^64. -/
def message_size_of (p : Params) (buf : List Nat) : Nat :=
  (buf.length + 2 ^ 64 - (cfg_info_size p buf + header_size_of p buf) % 2 ^ 64) % 2 ^ 64

/-- Offset of msg = buf + cfg_info_size + sizeof(uint32_t): where the
header block starts. -/
def msg_offset (p : Params) (buf : List Nat) : Nat :=
  cfg_info_size p buf + 4

/-- Offset of body = msg + header_size: where the body slice starts. -/
def body_offset (p : Params) (buf : List Nat) : Nat :=
  msg_offset p buf + header_size_of p buf

/-- temp_headers = strndup(msg, header_size): at most header_size
bytes starting at msg, cut at the first nul. -/
def temp_headers_str (p : Params) (buf : List Nat) : String :=
  bytesToStr (((buf.drop (msg_offset p buf)).take (header_size_of p buf)).takeWhile
    (fun b => b ≠ 0))

/-- The strtok line stream over the duplicated header block. -/
def header_lines (p : Params) (buf : List Nat) : List String :=
  tokLines (temp_headers_str p buf)

/-- The body as later printed with %s: the C string starting at
body_offset. -/
def body_str (p : Params) (buf : List Nat) : String :=
  bytesToStr ((buf.drop (body_offset p buf)).takeWhile (fun b => b ≠ 0))

/-- Modelled from the spec: get_header lives in a translation unit
outside this repository slice; per the spec, each schema header must
appear at its expected position as a line beginning with the expected
name, and the whole matched line is kept as the header value. -/
def get_header (line : String) (name : String) : Bool :=
  List.isPrefixOf (name ++ (": ")).data line.data

/-- The header loop of process_record: for i in 0..NUM_HEADERS-1,
take the next strtok token, require the i-th schema name at that
position, keep the line, and rewrite the machine-id slot through
machine_id_replace.  `none` is the goto-end failure path. -/
def parse_headers (midStr : String) (ov fileContent : Option String) :
    List String → List String → Option (List String)
  | [], _ => some []
  | _ :: _, [] => none
  | n :: ns, l :: ls =>
    if get_header l n then
      let h := if n = midStr then machine_id_replace midStr ov fileContent else l
      match parse_headers midStr ov fileContent ns ls with
      | some rest => some (h :: rest)
      | none => none
    else
      none

inductive PRResult
  | assertFailed
  | dropped
  | staged (cfg : Option String) (headers : List String) (body : String)
deriving DecidableEq, Repr

/-- process_record: locate the optional config tag, read header_size,
compute message_size (assert it nonzero), parse the NUM_HEADERS
header lines, and on success hand the decoded record to the stager;
on a header mismatch drop the record (goto end).  `ov` is
daemon->machine_id_override, `fileContent` the machine-id file. -/
def process_record (p : Params) (ov fileContent : Option String) (buf : List Nat) :
    PRResult :=
  if message_size_of p buf = 0 then
    .assertFailed
  else
    match parse_headers p.machineIdStr ov fileContent p.headerNames (header_lines p buf) with
    | none => .dropped
    | some hs =>
      .staged (if cfgPresent p buf then some (cfg_file_str p buf) else none) hs
        (body_str p buf)

/-! ## Stager: stage_record

mkstemp atomically creates the uniquely named file (the name it gets
is its final name), fdopen wraps the descriptor, then fprintf writes
the config line (when a tag is present), the header lines and the
body, each with a trailing newline; fflush then fclose.  The fprintf
return values are not checked by the C code.  `StageEnv` carries each
call's outcome: `writeOk k` tells whether the k-th fprintf actually
wrote its data.  The outcome records the log lines emitted, whether a
file exists under the staged name on return, and its content. -/

inductive FileOp
  | mkstempOp
  | fdopenOp
  | writeOp (s : String)
  | flushOp
  | closeOp
  | unlinkOp
deriving DecidableEq, Repr

structure StageEnv where
  mkstempOk : Bool
  fdopenOk : Bool
  unlinkOk : Bool
  writeOk : Nat → Bool

structure StageOutcome where
  logs : List String
  fileNamed : Bool
  content : String
  ops : List FileOp
deriving Repr

/-- Concatenation of a list of written strings, in order. -/
def strConcat : List String → String
  | [] => ("")
  | s :: ss => s ++ strConcat ss

/-- The strings passed to the data-writing fprintf calls, in order. -/
def stage_writes (marker : String) (headers : List String) (body : String)
    (cfg_file : Option String) : List String :=
  (match cfg_file with
   | some c => [marker ++ c ++ ("\n")]
   | none => []) ++ headers.map (fun h => h ++ ("\n")) ++ [body ++ ("\n")]

def stage_record (env : StageEnv) (marker : String) (headers : List String)
    (body : String) (cfg_file : Option String) : StageOutcome :=
  if ¬ env.mkstempOk then
    { logs := [("Error opening staging file")], fileNamed := false, content := ("")
      ops := [.mkstempOp] }
  else if ¬ env.fdopenOk then
    if env.unlinkOk then
      { logs := [("Error opening temp stage file")], fileNamed := false, content := ("")
        ops := [.mkstempOp, .fdopenOp, .closeOp, .unlinkOp] }
    else
      { logs := [("Error opening temp stage file"), ("Error deleting temp stage file")]
        fileNamed := true, content := ("")
        ops := [.mkstempOp, .fdopenOp, .closeOp, .unlinkOp] }
  else
    let ws := stage_writes marker headers body cfg_file
    { logs := []
      fileNamed := true
      content := strConcat (ws.enum.filterMap
        (fun pr => if env.writeOk pr.1 then some pr.2 else none))
      ops := [.mkstempOp, .fdopenOp] ++ ws.map .writeOp ++ [.flushOp, .closeOp] }

/-- The staged-file format as the spec's external-interface section
gives it: the optional marker line, the header lines in schema order,
then the body, each newline-terminated.  Stated from the spec's
words, for comparison with stage_record. -/
def spec_staged_file (marker : String) (cfg : Option String) (headers : List String)
    (body : String) : String :=
  (match cfg with
   | some c => marker ++ c ++ ("\n")
   | none => ("")) ++ strConcat (headers.map (fun h => h ++ ("\n"))) ++ body ++ ("\n")

/-! ## Machine-id store -/

/-- machine_id_write: fopen the id file for writing (this truncates
it), fprintf the new id, fflush, fclose.  Result pairs the C return
value with the file's resulting content, `none` meaning the file was
not touched. -/
def machine_id_write (openOk printfOk : Bool) (newId : String) : Int × Option String :=
  if ¬ openOk then
    (-1, none)
  else if ¬ printfOk then
    (-1, some (""))
  else
    (0, some newId)

/-- generate_machine_id: obtain a fresh random id (get_random_id, an
external collaborator whose outcome is the `randOk`/`newId` pair) and
persist it through machine_id_write. -/
def generate_machine_id (randOk : Bool) (newId : String) (openOk printfOk : Bool) :
    Int × Option String :=
  if ¬ randOk then
    (1, none)
  else
    machine_id_write openOk printfOk newId

/-- stat outcome for the machine-id file. -/
inductive StatResult
  | enoent
  | statErr
  | ok (mtime : Int)
deriving DecidableEq, Repr

/-- update_machine_id: stat the id file; generate a fresh id if it
does not exist; regenerate it when current_time - st_mtime exceeds
TM_MACHINE_ID_EXPIRY; otherwise do nothing and return 0.  A stat
failure other than ENOENT logs and returns -1. -/
def update_machine_id (st : StatResult) (currentTime expiry : Int)
    (randOk : Bool) (newId : String) (openOk printfOk : Bool) : Int × Option String :=
  match st with
  | .enoent => generate_machine_id randOk newId openOk printfOk
  | .statErr => (-1, none)
  | .ok mtime =>
    if currentTime - mtime > expiry then
      generate_machine_id randOk newId openOk printfOk
    else
      (0, none)

/-! ## Concrete parameter instantiation used by witnesses -/

def testParams : Params :=
  { cfgPrefixLength := 4
    pathMax := 4096
    maxPayloadLength := 8192
    headerNames := [("A"), ("machine_id")]
    machineIdStr := ("machine_id")
    cfgMagic := [67, 70, 71, 58]
    cfgMarker := ("CFGPATH=") }

/-- A well-formed two-header record buffer with no config tag:
header_size 19, header block lines, then the body. -/
def wfBuf : List Nat :=
  [19, 0, 0, 0] ++ strBytes ("A: 1\nmachine_id: X\n") ++ strBytes ("hello")

/-- A record buffer whose header block lacks the expected first
schema header name. -/
def badBuf : List Nat :=
  [5, 0, 0, 0] ++ strBytes ("B: 1\n") ++ strBytes ("x")

/-- A buffer whose size-agreement counterexample is visible: size 8,
no config tag, declared header_size 2. -/
def c2buf : List Nat :=
  [2, 0, 0, 0, 65, 10, 66, 66]

/-- A complete 8-byte record declaring header_size 200: the header
block it promises extends far past the received bytes. -/
def oobBuf : List Nat :=
  [200, 0, 0, 0, 1, 2, 3, 4]

/-- A stager environment in which file creation succeeds but the
first data write fails. -/
def badWriteEnv : StageEnv :=
  { mkstempOk := true, fdopenOk := true, unlinkOk := true
    writeOk := fun n => n != 0 }

/-- A stager environment in which all calls succeed. -/
def allOkEnv : StageEnv :=
  { mkstempOk := true, fdopenOk := true, unlinkOk := true
    writeOk := fun _ => true }

/-! ## Helper lemmas -/

/-- The framer body loop invokes process_record at most once: the
only invocation site is followed by an unconditional break. -/
theorem read_loop_calls_le_one (rs : List Recv) :
    ∀ size offset : Nat, (read_loop size offset rs).1 ≤ 1 := by
  induction rs with
  | nil => intro size offset; simp [read_loop]
  | cons r rs ih =>
    intro size offset
    cases r with
    | rerr => simp [read_loop]
    | closed => simp [read_loop]
    | chunk n =>
      by_cases h0 : min n (size - offset) = 0
      · simp [read_loop, h0]
      · by_cases h1 : offset + min n (size - offset) = size
        · simp [read_loop, h0, h1]
        · simpa [read_loop, h0, h1] using ih size (offset + min n (size - offset))

theorem strConcat_append (a b : List String) :
    strConcat (a ++ b) = strConcat a ++ strConcat b := by
  induction a with
  | nil => simp [strConcat, String.empty_append]
  | cons s ss ih => simp [strConcat, ih, String.append_assoc]

/-- When the header loop succeeds, every slot whose schema name is
the machine-id header holds the rebuilt machine-id line. -/
theorem parse_headers_machine_id_slot (midStr : String) (ov fc : Option String) :
    ∀ (names lines hs : List String),
      parse_headers midStr ov fc names lines = some hs →
      ∀ i : Nat, names[i]? = some midStr →
        hs[i]? = some (machine_id_replace midStr ov fc) := by
  intro names
  induction names with
  | nil =>
    intro lines hs _ i hn
    simp at hn
  | cons n ns ih =>
    intro lines hs hp i hn
    cases lines with
    | nil => simp [parse_headers] at hp
    | cons l ls =>
      unfold parse_headers at hp
      by_cases hg : get_header l n
      · rw [if_pos hg] at hp
        cases hrec : parse_headers midStr ov fc ns ls with
        | none => rw [hrec] at hp; exact absurd hp (by simp)
        | some rest =>
          rw [hrec] at hp
          simp only [Option.some.injEq] at hp
          subst hp
          cases i with
          | zero =>
            simp only [List.getElem?_cons_zero, Option.some.injEq] at hn
            subst hn
            simp
          | succ j =>
            simp only [List.getElem?_cons_succ] at hn ⊢
            exact ih ls rest hrec j hn
      · rw [if_neg hg] at hp
        exact absurd hp (by simp)

/-- fscanf of a nonempty whitespace-free id of at most 32 characters
returns exactly the file contents. -/
theorem get_machine_id_clean (s : String) (hne : s.data ≠ [])
    (hws : ∀ c ∈ s.data, isWS c = false) (hlen : s.data.length ≤ 32) :
    get_machine_id (some s) = some s := by
  unfold get_machine_id
  dsimp only
  have hdrop : s.data.dropWhile isWS = s.data := by
    cases hd : s.data with
    | nil => simp
    | cons c cs =>
      rw [List.dropWhile_cons]
      rw [hws c (by rw [hd]; exact List.mem_cons_self c cs)]
      simp
  have htake : s.data.takeWhile (fun c => ¬ isWS c) = s.data := by
    rw [List.takeWhile_eq_self_iff]
    intro c hc
    simp [hws c hc]
  rw [hdrop, htake, List.take_of_length_le hlen, if_neg hne]

end Telem

namespace Telem

/-! ## Claim theorems -/

/-- C1: whenever the declared record_size is at most the 4-byte size
field width or greater than MAX_RECORD_SIZE, handle_client goes
straight to end_client: no record buffer is allocated, process_record
is never invoked (so nothing can reach stage_record and the spool
directory), terminate_client runs exactly once, and the call returns
false. -/
theorem handle_client_rejects_bad_size (p : Params) (a b : Nat) (callocOk : Bool)
    (reads : List Recv) (rs : Nat)
    (hrej : rs ≤ RECORD_SIZE_LEN ∨ rs > MAX_RECORD_SIZE p) :
    handle_client p ⟨.chunk a, .chunk b, rs, callocOk, reads⟩ =
      ⟨false, 0, 1, false, false⟩ := by
  unfold handle_client
  simp [hrej]

theorem handle_client_rejects_bad_size_witness :
    handle_client testParams ⟨.chunk 4, .chunk 4, 4, true, [.chunk 10]⟩ =
      ⟨false, 0, 1, false, false⟩ :=
  handle_client_rejects_bad_size testParams 4 4 true [.chunk 10] 4
    (Or.inl (by decide))

/-- C2 counterexample: at a concrete complete record (size 8, no
config tag, header_size 2) the reported message_size (6) differs
from the size of the slice from the body offset to the end of the
buffer (2): the two computations do not account for the 4-byte
header-length field identically, refuting the claim that they
agree. -/
theorem message_size_body_slice_disagree :
    message_size_of testParams c2buf ≠
      c2buf.length - body_offset testParams c2buf := by
  decide

/-- C2 amended: whenever the declared sizes fit inside the received
buffer, message_size exceeds the length of the body slice actually
taken by exactly 4: message_size subtracts cfg_info_size and
header_size from cl->size but not the header-length field itself,
while the body pointer skips that field too. -/
theorem message_size_exceeds_body_slice_by_four (p : Params) (buf : List Nat)
    (hfit : body_offset p buf ≤ buf.length) (hsz : buf.length < 2 ^ 64) :
    message_size_of p buf = (buf.length - body_offset p buf) + 4 := by
  have e : (2 : Nat) ^ 64 = 18446744073709551616 := by norm_num
  unfold message_size_of
  unfold body_offset msg_offset at hfit ⊢
  rw [e] at hsz ⊢
  omega

theorem message_size_exceeds_body_slice_by_four_witness :
    message_size_of testParams wfBuf =
      (wfBuf.length - body_offset testParams wfBuf) + 4 :=
  message_size_exceeds_body_slice_by_four testParams wfBuf (by decide) (by decide)

/-- C3: a complete record whose header block fails the schema check
(the expected name is not at the expected position for some header
index) makes process_record take the goto-end path before any
staging: the result is dropped, never staged. -/
theorem process_record_drops_bad_headers (p : Params) (ov fc : Option String)
    (buf : List Nat)
    (hms : message_size_of p buf ≠ 0)
    (hbad : parse_headers p.machineIdStr ov fc p.headerNames (header_lines p buf) =
      none) :
    process_record p ov fc buf = .dropped := by
  unfold process_record
  rw [if_neg hms, hbad]

theorem process_record_drops_bad_headers_witness :
    process_record testParams none none badBuf = .dropped :=
  process_record_drops_bad_headers testParams none none badBuf (by decide) (by decide)

/-- C4: for a well-formed record whose header block carries every
schema header in order, process_record stages the parsed headers,
and the slot whose schema name is the machine-id header holds
exactly "name: id" with id the daemon override (when set; the
override read from disk is at most 32 characters, which the strncpy
truncation hypothesis records) and otherwise the machine-id file
contents — the value the client submitted in that slot never reaches
the staged record. -/
theorem staged_machine_id_header (p : Params) (ov fc : Option String)
    (buf : List Nat) (headers : List String) (i : Nat)
    (hms : message_size_of p buf ≠ 0)
    (hparse : parse_headers p.machineIdStr ov fc p.headerNames (header_lines p buf) =
      some headers)
    (hname : p.headerNames[i]? = some p.machineIdStr) :
    process_record p ov fc buf =
      .staged (if cfgPresent p buf then some (cfg_file_str p buf) else none) headers
        (body_str p buf) ∧
    (∀ o, ov = some o → o.data.length ≤ 32 →
      headers[i]? = some (p.machineIdStr ++ (": ") ++ o)) ∧
    (∀ s, ov = none → fc = some s → s.data ≠ [] →
      (∀ c ∈ s.data, isWS c = false) → s.data.length ≤ 32 →
      headers[i]? = some (p.machineIdStr ++ (": ") ++ s)) := by
  refine ⟨?_, ?_, ?_⟩
  · unfold process_record
    rw [if_neg hms, hparse]
  · intro o hov hlen
    have hslot := parse_headers_machine_id_slot p.machineIdStr ov fc p.headerNames
      (header_lines p buf) headers hparse i hname
    rw [hslot, hov]
    unfold machine_id_replace takeChars
    dsimp only
    rw [List.take_of_length_le hlen]
  · intro s hov hfc hne hws hlen
    have hslot := parse_headers_machine_id_slot p.machineIdStr ov fc p.headerNames
      (header_lines p buf) headers hparse i hname
    rw [hslot, hov, hfc]
    unfold machine_id_replace
    dsimp only
    rw [get_machine_id_clean s hne hws hlen]

theorem staged_machine_id_header_witness :
    ([("A: 1"), ("machine_id: REAL")] : List String)[1]? =
      some (testParams.machineIdStr ++ (": ") ++ ("REAL")) :=
  (staged_machine_id_header testParams (some ("REAL")) none wfBuf
      [("A: 1"), ("machine_id: REAL")] 1 (by decide) (by decide) (by decide)).2.1
    ("REAL") rfl (by decide)

/-- C6: process_record trusts the attacker-controlled header-length
field.  On the concrete 8-byte record declaring header_size 200 the
declared header block exceeds the received buffer, the size_t
subtraction wraps to 2^64 - 192, the assert(message_size > 0) still
passes (process_record does not stop at the assert), and both the
strndup range msg..msg+header_size and the body pointer
msg + header_size lie past the end of the buffer. -/
theorem header_size_unchecked_wraparound :
    cfg_info_size testParams oobBuf + header_size_of testParams oobBuf >
        oobBuf.length ∧
    message_size_of testParams oobBuf = 2 ^ 64 - 192 ∧
    message_size_of testParams oobBuf > oobBuf.length ∧
    process_record testParams none none oobBuf ≠ .assertFailed ∧
    msg_offset testParams oobBuf + header_size_of testParams oobBuf >
        oobBuf.length ∧
    body_offset testParams oobBuf > oobBuf.length := by
  decide

/-- C5: when every file operation succeeds, the staged file holds
exactly, in order: the marker-plus-config-path line if and only if a
config tag was present, the NUM_HEADERS header lines in schema
order, then the body, each newline-terminated — byte-identical to
the spec staged-file format — and the operation sequence performs
the fflush before the fclose that releases the handle. -/
theorem stage_record_layout (env : StageEnv) (marker : String)
    (headers : List String) (body : String) (cfg : Option String)
    (hm : env.mkstempOk = true) (hf : env.fdopenOk = true)
    (hw : ∀ n, env.writeOk n = true) :
    (stage_record env marker headers body cfg).content =
      spec_staged_file marker cfg headers body ∧
    (stage_record env marker headers body cfg).fileNamed = true ∧
    (stage_record env marker headers body cfg).ops =
      [.mkstempOp, .fdopenOp] ++
        (stage_writes marker headers body cfg).map FileOp.writeOp ++
        [.flushOp, .closeOp] := by
  have hfun : (fun pr : Nat × String => if env.writeOk pr.1 then some pr.2 else none) =
      some ∘ Prod.snd := by
    funext pr
    simp [hw]
  have hfm : (stage_writes marker headers body cfg).enum.filterMap
      (fun pr => if env.writeOk pr.1 then some pr.2 else none) =
      stage_writes marker headers body cfg := by
    rw [hfun, List.filterMap_eq_map, List.enum_map_snd]
  have hcontent : strConcat (stage_writes marker headers body cfg) =
      spec_staged_file marker cfg headers body := by
    unfold stage_writes spec_staged_file
    cases cfg with
    | none =>
      simp only [List.nil_append]
      rw [strConcat_append]
      simp [strConcat, String.append_empty, String.empty_append, String.append_assoc]
    | some c =>
      rw [List.append_assoc, strConcat_append, strConcat_append]
      simp [strConcat, String.append_empty, String.empty_append, String.append_assoc]
  refine ⟨?_, ?_, ?_⟩ <;>
    simp [stage_record, hm, hf, hfm, hcontent]

theorem stage_record_layout_witness :
    (stage_record allOkEnv ("MARK=") [("A: 1")] ("payload") (some ("/etc/x.conf"))).content =
      spec_staged_file ("MARK=") (some ("/etc/x.conf")) [("A: 1")] ("payload") :=
  (stage_record_layout allOkEnv ("MARK=") [("A: 1")] ("payload") (some ("/etc/x.conf"))
      rfl rfl (fun _ => rfl)).1

/-- C7 counterexample: with file creation succeeding but the first
data write failing, stage_record emits no log line, and a file
remains accessible under its final staged name whose content is not
the full record — a partially-written staged file survives a write
failure, refuting the claim that every create-or-write failure is
logged and leaves no partial file. -/
theorem stage_record_silent_write_failure :
    badWriteEnv.writeOk 0 = false ∧
    (stage_record badWriteEnv ("MARK=") [("A: 1")] ("payload")
        (some ("/etc/x.conf"))).logs = [] ∧
    (stage_record badWriteEnv ("MARK=") [("A: 1")] ("payload")
        (some ("/etc/x.conf"))).fileNamed = true ∧
    (stage_record badWriteEnv ("MARK=") [("A: 1")] ("payload")
        (some ("/etc/x.conf"))).content ≠
      spec_staged_file ("MARK=") (some ("/etc/x.conf")) [("A: 1")] ("payload") := by
  decide

/-- C7 amended: failures while creating the staging file (mkstemp,
or fdopen with the cleanup unlink succeeding) are logged and leave no
file under the staged name; but a write failure after successful
creation is undetected — the fprintf return values are ignored — so
the possibly partial file stays under its final name (creation and
final naming are one atomic mkstemp step; there is no rename). -/
theorem stage_record_create_failure_drops (env : StageEnv) (marker : String)
    (headers : List String) (body : String) (cfg : Option String)
    (hcreate : env.mkstempOk = false ∨
      (env.fdopenOk = false ∧ env.unlinkOk = true)) :
    (stage_record env marker headers body cfg).logs ≠ [] ∧
    (stage_record env marker headers body cfg).fileNamed = false := by
  unfold stage_record
  rcases hcreate with hm | ⟨hf, hu⟩
  · simp [hm]
  · cases hmk : env.mkstempOk with
    | false => simp [hmk]
    | true => simp [hmk, hf, hu]

theorem stage_record_create_failure_drops_witness :
    (stage_record ⟨false, true, true, fun _ => true⟩ ("MARK=") [("A: 1")]
        ("payload") none).logs ≠ [] ∧
    (stage_record ⟨false, true, true, fun _ => true⟩ ("MARK=") [("A: 1")]
        ("payload") none).fileNamed = false :=
  stage_record_create_failure_drops ⟨false, true, true, fun _ => true⟩ ("MARK=")
    [("A: 1")] ("payload") none (Or.inl rfl)

/-- C8: every non-aborting invocation of handle_client reaches the
end_client label exactly once, so terminate_client runs exactly once
per accepted connection, and the body loop invokes process_record at
most once (one record per connection); terminate_client removes the
poll entry at the given index by compaction (length drops by one,
entries above the index shift down, entries below stay), and removes
the connection from the client list (its buffer free and descriptor
close are inside remove_client). -/
theorem handle_client_single_termination (p : Params) (inp : HCInput)
    (st : DaemonStateM) (cl : ClientM) (i : Nat)
    (hnoabort : (handle_client p inp).aborted = false)
    (hi : i < st.pollfds.length) (hnd : st.clients.Nodup) (hmem : cl ∈ st.clients) :
    (handle_client p inp).terminateCalls = 1 ∧
    (handle_client p inp).processCalls ≤ 1 ∧
    (terminate_client st cl i).pollfds.length = st.pollfds.length - 1 ∧
    (∀ j, j < i → (terminate_client st cl i).pollfds[j]? = st.pollfds[j]?) ∧
    (∀ j, i ≤ j → (terminate_client st cl i).pollfds[j]? = st.pollfds[j + 1]?) ∧
    cl ∉ (terminate_client st cl i).clients ∧
    (terminate_client st cl i).clients.length + 1 = st.clients.length := by
  have hterm : (handle_client p inp).terminateCalls = 1 ∧
      (handle_client p inp).processCalls ≤ 1 := by
    unfold handle_client at hnoabort ⊢
    cases hp : inp.peek with
    | rerr => simp
    | closed => simp
    | chunk a =>
      cases hs : inp.sizeRecv with
      | rerr => simp
      | closed => simp
      | chunk b =>
        rw [hp, hs] at hnoabort
        by_cases hrej : inp.recordSize ≤ RECORD_SIZE_LEN ∨
            inp.recordSize > MAX_RECORD_SIZE p
        · simp [hrej]
        · by_cases hca : inp.callocOk
          · constructor
            · simp [hrej, hca]
            · simpa [hrej, hca] using
                read_loop_calls_le_one inp.bodyReads (inp.recordSize - RECORD_SIZE_LEN) 0
          · simp [hrej, hca] at hnoabort
  have hlen : (del_pollfd st.pollfds i).length = st.pollfds.length - 1 := by
    unfold del_pollfd
    rw [List.length_append, List.length_take, List.length_drop]
    omega
  have hbefore : ∀ j, j < i → (del_pollfd st.pollfds i)[j]? = st.pollfds[j]? := by
    intro j hj
    unfold del_pollfd
    rw [List.getElem?_append_left (by rw [List.length_take]; omega)]
    rw [List.getElem?_take, if_pos hj]
  have hafter : ∀ j, i ≤ j → (del_pollfd st.pollfds i)[j]? = st.pollfds[j + 1]? := by
    intro j hj
    unfold del_pollfd
    rw [List.getElem?_append_right (by rw [List.length_take]; omega)]
    rw [List.getElem?_drop]
    congr 1
    rw [List.length_take]
    omega
  have hpos : 0 < st.clients.length := List.length_pos_of_mem hmem
  have herase : (st.clients.erase cl).length + 1 = st.clients.length := by
    rw [List.length_erase_of_mem hmem]
    omega
  exact ⟨hterm.1, hterm.2, hlen, hbefore, hafter, hnd.not_mem_erase, herase⟩

theorem handle_client_single_termination_witness :
    (handle_client testParams ⟨.chunk 1, .chunk 1, 10, true, [.chunk 6]⟩).terminateCalls
      = 1 :=
  (handle_client_single_termination testParams ⟨.chunk 1, .chunk 1, 10, true, [.chunk 6]⟩
      ⟨[⟨5, 1, 0⟩, ⟨6, 1, 0⟩], [⟨5, 0, 0, false⟩, ⟨6, 0, 0, false⟩]⟩
      ⟨5, 0, 0, false⟩ 0 (by decide) (by decide) (by decide) (by decide)).1

/-- C9 counterexample: add_client whose malloc fails returns
normally with a NULL client and the list untouched — the process
does not abort, refuting the claim that registration fails fatally
on allocation failure: within this file the only fatal register path
is in add_pollfd. -/
theorem add_client_alloc_failure_returns :
    add_client false [] 3 = (none, []) := by
  decide

/-- C9 amended: add_pollfd aborts the process on allocation failure,
and allocation failure is its only failure path (on success it
appends exactly the requested poll entry with cleared revents);
add_client, however, returns NULL on its malloc failure without
aborting, leaving the client list unchanged — fatal handling of that
case is left to the caller outside this file.  (add_client leaves
cl->size uninitialised; the model fixes it at 0.) -/
theorem register_alloc_failure_policy (pollfds : List PollFd)
    (clients : List ClientM) (fd events : Int) (mallocOk allocOk : Bool) :
    (add_pollfd allocOk pollfds fd events = none ↔ allocOk = false) ∧
    (allocOk = true →
      add_pollfd allocOk pollfds fd events =
        some (pollfds ++ [{ fd := fd, events := events, revents := 0 }])) ∧
    (mallocOk = false → add_client mallocOk clients fd = (none, clients)) ∧
    (mallocOk = true →
      add_client mallocOk clients fd =
        (some { fd := fd, offset := 0, size := 0, bufPresent := false },
          { fd := fd, offset := 0, size := 0, bufPresent := false } :: clients)) := by
  refine ⟨?_, ?_, ?_, ?_⟩
  · cases allocOk <;> simp [add_pollfd]
  · intro h
    simp [add_pollfd, h]
  · intro h
    simp [add_client, h]
  · intro h
    simp [add_client, h]

theorem register_alloc_failure_policy_witness :
    add_pollfd false [] 3 1 = none :=
  (register_alloc_failure_policy [] [] 3 1 true false).1.mpr rfl

/-- C10: update_machine_id generates and persists a fresh id when
the id file is absent (stat gives ENOENT); regenerates it when the
file exists and current_time - st_mtime exceeds the expiry window;
and when the file exists and is fresh it writes nothing and returns
success, whatever the generator or file-write outcomes would have
been. -/
theorem update_machine_id_cases (currentTime expiry mtime : Int) (newId : String)
    (randOk openOk printfOk : Bool) :
    update_machine_id .enoent currentTime expiry true newId true true =
      (0, some newId) ∧
    (currentTime - mtime > expiry →
      update_machine_id (.ok mtime) currentTime expiry true newId true true =
        (0, some newId)) ∧
    (¬ currentTime - mtime > expiry →
      update_machine_id (.ok mtime) currentTime expiry randOk newId openOk printfOk =
        (0, none)) := by
  refine ⟨?_, ?_, ?_⟩
  · simp [update_machine_id, generate_machine_id, machine_id_write]
  · intro h
    simp [update_machine_id, generate_machine_id, machine_id_write, h]
  · intro h
    simp [update_machine_id, h]

theorem update_machine_id_cases_witness :
    update_machine_id (.ok 50) 100 10 true ("fresh") true true = (0, some ("fresh")) ∧
    update_machine_id (.ok 95) 100 10 false ("fresh") false false = (0, none) :=
  ⟨(update_machine_id_cases 100 10 50 ("fresh") true true true).2.1 (by decide),
   (update_machine_id_cases 100 10 95 ("fresh") false false false).2.2 (by decide)⟩

end Telem
